import Mathlib

/-!
Shallow embedding of opentrack's adaptive Kalman pose filter
(`filter-kalman/kalman.cpp`): a 12-state linear Kalman filter, an
adaptive process-noise scaler, a per-axis deadzone filter, and the
`FTNoIR_Filter` orchestration loop.  C++ doubles are modelled as real
numbers (exact arithmetic); Eigen matrices become Mathlib matrices over
`Fin 12` / `Fin 6`; the wall-clock timer is modelled by passing the
elapsed seconds `dt` as an explicit argument to each `filter` call.
-/

noncomputable section

open Matrix

/-- `NUM_STATE_DOF` from the source: 6 pose components plus 6 velocities. -/
def NUM_STATE_DOF : Nat := 12

/-- `NUM_MEASUREMENT_DOF` from the source: the 6 pose components. -/
def NUM_MEASUREMENT_DOF : Nat := 6

/-- `StateVector`: 12 real components (pose followed by velocities). -/
abbrev StateVector : Type := Fin 12 → ℝ

/-- `PoseVector`: 6 real components. -/
abbrev PoseVector : Type := Fin 6 → ℝ

/-- `state.head(6)` / `diagonal().head(6)` index embedding `Fin 6 ↪ Fin 12`. -/
def head6 (v : Fin 12 → ℝ) : PoseVector := fun i => v (Fin.castAdd 6 i)

/-- The `KalmanFilter` class state: all member matrices and vectors. -/
structure KalmanFilter where
  measurement_noise_cov : Matrix (Fin 6) (Fin 6) ℝ
  process_noise_cov : Matrix (Fin 12) (Fin 12) ℝ
  kalman_gain : Matrix (Fin 12) (Fin 6) ℝ
  measurement_matrix : Matrix (Fin 6) (Fin 12) ℝ
  state_cov : Matrix (Fin 12) (Fin 12) ℝ
  state_cov_prior : Matrix (Fin 12) (Fin 12) ℝ
  transition_matrix : Matrix (Fin 12) (Fin 12) ℝ
  state : StateVector
  state_prior : StateVector
  innovation : PoseVector

/-- `KalmanFilter::init()`: zero every matrix and vector. -/
def KalmanFilter.init : KalmanFilter where
  measurement_noise_cov := 0
  process_noise_cov := 0
  kalman_gain := 0
  measurement_matrix := 0
  state_cov := 0
  state_cov_prior := 0
  transition_matrix := 0
  state := fun _ => 0
  state_prior := fun _ => 0
  innovation := fun _ => 0

/-- `KalmanFilter::time_update()`:
`state_prior = F·state`, `state_cov_prior = F·state_cov·Fᵀ + Q`. -/
def KalmanFilter.time_update (kf : KalmanFilter) : KalmanFilter :=
  { kf with
    state_prior := kf.transition_matrix.mulVec kf.state
    state_cov_prior :=
      kf.transition_matrix * kf.state_cov * kf.transition_matrixᵀ + kf.process_noise_cov }

/-- `KalmanFilter::measurement_update(measurement)`: innovation covariance
`tmp = H·P_prior·Hᵀ + R`, gain `K = P_prior·Hᵀ·tmp⁻¹`, innovation
`y = measurement − H·state_prior`, then `state = state_prior + K·y` and
`state_cov = P_prior − K·H·P_prior`.  Total: it never rejects input
(a singular `tmp` yields whatever `tmp⁻¹` evaluates to, as in the C++). -/
def KalmanFilter.measurement_update (kf : KalmanFilter) (measurement : PoseVector) :
    KalmanFilter :=
  let tmp := kf.measurement_matrix * kf.state_cov_prior * kf.measurement_matrixᵀ
      + kf.measurement_noise_cov
  let tmp_inv := tmp⁻¹
  let gain := kf.state_cov_prior * kf.measurement_matrixᵀ * tmp_inv
  let innov : PoseVector :=
    fun i => measurement i - kf.measurement_matrix.mulVec kf.state_prior i
  { kf with
    kalman_gain := gain
    innovation := innov
    state := fun i => kf.state_prior i + gain.mulVec innov i
    state_cov := kf.state_cov_prior - gain * kf.measurement_matrix * kf.state_cov_prior }

/-- The `KalmanProcessNoiseScaler` class state. -/
structure KalmanProcessNoiseScaler where
  base_cov : Matrix (Fin 12) (Fin 12) ℝ
  innovation_cov_estimate : Matrix (Fin 6) (Fin 6) ℝ

/-- `KalmanProcessNoiseScaler::init()`: zero both matrices. -/
def KalmanProcessNoiseScaler.init : KalmanProcessNoiseScaler where
  base_cov := 0
  innovation_cov_estimate := 0

/-- The exponentially-weighted innovation covariance estimate computed at the
top of `KalmanProcessNoiseScaler::update`:
`f·(innovation·innovationᵀ) + (1−f)·innovation_cov_estimate` with
`f = dt / (dt + adaptivity_window_length)`. -/
def KalmanProcessNoiseScaler.ice_next (sc : KalmanProcessNoiseScaler) (kf : KalmanFilter)
    (dt window_length : ℝ) : Matrix (Fin 6) (Fin 6) ℝ :=
  let f := dt / (dt + window_length)
  f • Matrix.vecMulVec kf.innovation kf.innovation + (1 - f) • sc.innovation_cov_estimate

/-- The scalar `alpha` computed by `KalmanProcessNoiseScaler::update`:
`alpha = 0.001` unless `T2 > 0 && T1 > 0`, in which case
`alpha = min(1000, max(0.001, sqrt(T1/T2)))`. -/
def KalmanProcessNoiseScaler.alphaOf (sc : KalmanProcessNoiseScaler) (kf : KalmanFilter)
    (dt window_length : ℝ) : ℝ :=
  let ice := sc.ice_next kf dt window_length
  let T1 := (ice - kf.measurement_noise_cov).trace
  let T2 := (kf.measurement_matrix * kf.state_cov_prior * kf.measurement_matrixᵀ).trace
  if T2 > 0 ∧ T1 > 0 then min 1000 (max 0.001 (Real.sqrt (T1 / T2))) else 0.001

/-- `KalmanProcessNoiseScaler::update(kf, dt)`: updates
`innovation_cov_estimate` and sets `kf.process_noise_cov = alpha · base_cov`.
Returns the updated scaler and filter. -/
def KalmanProcessNoiseScaler.update (sc : KalmanProcessNoiseScaler) (kf : KalmanFilter)
    (dt window_length : ℝ) : KalmanProcessNoiseScaler × KalmanFilter :=
  let sc' : KalmanProcessNoiseScaler :=
    { sc with innovation_cov_estimate := sc.ice_next kf dt window_length }
  let alpha := sc.alphaOf kf dt window_length
  (sc', { kf with process_noise_cov := alpha • sc.base_cov })

/-- The `DeadzoneFilter` class state. -/
structure DeadzoneFilter where
  dz_size : PoseVector
  last_output : PoseVector

/-- `DeadzoneFilter::filter(input)`: per axis, if `dz_size[i] > 0` then
`out[i] = last_output[i] + f/(f+1)·delta` with
`f = (|delta|/dz_size[i])^deadzone_exponent` and
`delta = input[i] − last_output[i]`; otherwise `out[i] = input[i]`.
`last_output` is set to `out`.  Returns the updated filter and `out`. -/
def DeadzoneFilter.filter (dz : DeadzoneFilter) (deadzone_exponent : ℝ)
    (input : PoseVector) : DeadzoneFilter × PoseVector :=
  let out : PoseVector := fun i =>
    if dz.dz_size i > 0 then
      let delta := input i - dz.last_output i
      let f := (|delta| / dz.dz_size i) ^ deadzone_exponent
      dz.last_output i + f / (f + 1) * delta
    else input i
  ({ dz_size := dz.dz_size, last_output := out }, out)

/-- Modelled from the spec: `DeadzoneFilter::reset()` is declared in the
missing header `kalman.h`; per the spec's data-model lifecycle the deadzone
state is "reset to zero/initial pose on configuration reset". -/
def DeadzoneFilter.reset : DeadzoneFilter where
  dz_size := fun _ => 0
  last_output := fun _ => 0

/-- Modelled from the spec: the `settings` struct lives in the missing header
`kalman.h`.  Its five tuning constants are compiled-in `constexpr` defaults of
unknown value, the two slider values are integer settings, and
`map_slider_value` is a monotone mapping from slider value to noise variance;
all are kept parametric here. -/
structure Settings where
  adaptivity_window_length : ℝ
  deadzone_scale : ℝ
  deadzone_exponent : ℝ
  process_sigma_pos : ℝ
  process_simga_rot : ℝ
  noise_pos_slider_value : ℤ
  noise_rot_slider_value : ℤ
  map_slider_value : ℤ → ℝ

/-- `FTNoIR_Filter::fill_transition_matrix(dt)`: writes `dt` at positions
`(i, i+6)` for `i < 6`, leaving every other entry of the matrix as it was. -/
def fill_transition_matrix (M : Matrix (Fin 12) (Fin 12) ℝ) (dt : ℝ) :
    Matrix (Fin 12) (Fin 12) ℝ :=
  fun r c => if r.val < 6 ∧ c.val = r.val + 6 then dt else M r c

/-- `FTNoIR_Filter::fill_process_noise_cov_matrix(target, dt)`: per axis
`i < 6` (position axes use `a = sigma_pos²·dt`, rotation axes
`a = sigma_rot²·dt`) writes `target(i,i) = a`, `target(i,i+6) = a·c`,
`target(i+6,i) = a·c`, `target(i+6,i+6) = a·b` with `b = 20`, `c = 1`;
every other entry is left as it was. -/
def fill_process_noise_cov_matrix (s : Settings) (target : Matrix (Fin 12) (Fin 12) ℝ)
    (dt : ℝ) : Matrix (Fin 12) (Fin 12) ℝ :=
  let a_pos := s.process_sigma_pos * s.process_sigma_pos * dt
  let a_ang := s.process_simga_rot * s.process_simga_rot * dt
  let b : ℝ := 20
  let c : ℝ := 1
  fun r q =>
    if r.val < 6 ∧ q.val = r.val then (if r.val < 3 then a_pos else a_ang)
    else if r.val < 6 ∧ q.val = r.val + 6 then (if r.val < 3 then a_pos else a_ang) * c
    else if q.val < 6 ∧ r.val = q.val + 6 then (if q.val < 3 then a_pos else a_ang) * c
    else if 6 ≤ r.val ∧ q.val = r.val then (if r.val < 9 then a_pos * b else a_ang * b)
    else target r q

/-- The `FTNoIR_Filter` class state (the timer is modelled externally:
each `filter` call receives the elapsed seconds `dt` as an argument). -/
structure FTNoIR_Filter where
  kf : KalmanFilter
  kf_adaptive_process_noise_cov : KalmanProcessNoiseScaler
  dz_filter : DeadzoneFilter
  last_input : PoseVector
  first_run : Bool
  dt_since_last_input : ℝ
  prev_slider_pos : ℤ × ℤ
  minimal_state_var : PoseVector

/-- `std::numeric_limits<double>::max()`, exactly. -/
def dblMax : ℝ := 2 ^ 1024 - 2 ^ 971

/-- `FTNoIR_Filter::reset()`: reinitializes everything from the current
settings; no part of the previous state survives.  (Also the constructor:
`FTNoIR_Filter()` just calls `reset()`.) -/
def FTNoIR_Filter.reset (s : Settings) : FTNoIR_Filter :=
  let nvp := s.map_slider_value s.noise_pos_slider_value
  let nva := s.map_slider_value s.noise_rot_slider_value
  let base := fill_process_noise_cov_matrix s 0 0.03
  { kf :=
      { KalmanFilter.init with
        transition_matrix :=
          fill_transition_matrix (Matrix.diagonal fun _ => 1) 0.03
        measurement_matrix := fun r c => if c.val = r.val then 1 else 0
        measurement_noise_cov :=
          Matrix.diagonal fun i => if i.val < 3 then nvp else nva
        process_noise_cov := base
        state_cov := base }
    kf_adaptive_process_noise_cov := { base_cov := base, innovation_cov_estimate := 0 }
    dz_filter := DeadzoneFilter.reset
    last_input := fun _ => 0
    first_run := true
    dt_since_last_input := 0
    prev_slider_pos := (s.noise_pos_slider_value, s.noise_rot_slider_value)
    minimal_state_var := fun _ => dblMax }

/-- The new-measurement test at line 233 of the source:
`input.cwiseNotEqual(last_input).any()`. -/
def FTNoIR_Filter.new_input_p (st : FTNoIR_Filter) (input : PoseVector) : Prop :=
  ∃ i, input i ≠ st.last_input i

/-- The slider-change test at lines 217–218 of the source. -/
def FTNoIR_Filter.slider_changed (st : FTNoIR_Filter) (s : Settings) : Prop :=
  st.prev_slider_pos ≠ (s.noise_pos_slider_value, s.noise_rot_slider_value)

/-- The body of the `new_input` branch of `FTNoIR_Filter::do_kalman_filter`:
with `dt = dt_since_last_input`, rebuild `transition_matrix` and the
scaler's `base_cov` for that interval, run the adaptive scaler, then
`time_update()` and `measurement_update(input)`. -/
def FTNoIR_Filter.kalman_step (st : FTNoIR_Filter) (s : Settings)
    (input : PoseVector) : FTNoIR_Filter :=
  let d := st.dt_since_last_input
  let kfA := { st.kf with
    transition_matrix := fill_transition_matrix st.kf.transition_matrix d }
  let scA := { st.kf_adaptive_process_noise_cov with
    base_cov := fill_process_noise_cov_matrix s
      st.kf_adaptive_process_noise_cov.base_cov d }
  let upd := scA.update kfA d s.adaptivity_window_length
  let kfB := upd.2.time_update
  let kfC := kfB.measurement_update input
  { st with kf := kfC, kf_adaptive_process_noise_cov := upd.1 }

open Classical in
/-- `FTNoIR_Filter::do_kalman_filter(input, dt, new_input)`: when
`new_input`, run the Kalman step; otherwise do nothing.  Returns the
updated state and `kf.state.head(6)`. -/
def FTNoIR_Filter.do_kalman_filter (st : FTNoIR_Filter) (s : Settings)
    (input : PoseVector) (new_input : Prop) : FTNoIR_Filter × PoseVector :=
  let st' := if new_input then st.kalman_step s input else st
  (st', head6 st'.kf.state)

open Classical in
/-- The non-warm-up part of `FTNoIR_Filter::filter` (source lines 231–261):
new-input detection, `dt` accumulation, the Kalman step,
minimal-variance bookkeeping, deadzone sizing and filtering, and
last-input memory. -/
def FTNoIR_Filter.filter_tick (st : FTNoIR_Filter) (s : Settings) (input : PoseVector)
    (dt : ℝ) : FTNoIR_Filter × Option PoseVector :=
  let new_input := st.new_input_p input
  let st1 := { st with dt_since_last_input := st.dt_since_last_input + dt }
  let r := st1.do_kalman_filter s input new_input
  let st2 := r.1
  let variance : PoseVector := fun i =>
    st2.kf.state_cov (Fin.castAdd 6 i) (Fin.castAdd 6 i)
  let minimal : PoseVector := fun i => min (st2.minimal_state_var i) (variance i)
  let dzf := { st2.dz_filter with
    dz_size := fun i => Real.sqrt (variance i - minimal i) * s.deadzone_scale }
  let r2 := dzf.filter s.deadzone_exponent r.2
  ({ st2 with
      minimal_state_var := minimal
      dz_filter := r2.1
      dt_since_last_input := if new_input then 0 else st2.dt_since_last_input
      last_input := if new_input then input else st2.last_input },
   some r2.2)

open Classical in
/-- `FTNoIR_Filter::filter(input, output)`: slider-change reset, first-run
warm-up (no output, modelled as `none`; the C++ leaves the output buffer
untouched on that tick), then the regular tick `filter_tick`. -/
def FTNoIR_Filter.filter (st0 : FTNoIR_Filter) (s : Settings) (input : PoseVector)
    (dt : ℝ) : FTNoIR_Filter × Option PoseVector :=
  let st := if st0.slider_changed s then FTNoIR_Filter.reset s else st0
  if st.first_run then ({ st with first_run := false }, none)
  else st.filter_tick s input dt

/-- One caller tick: the settings in force, the raw input pose, and the
elapsed seconds reported by the timer. -/
structure TickInput where
  s : Settings
  input : PoseVector
  dt : ℝ

/-- Run a finite sequence of `filter` calls, keeping only the state. -/
def runFilter (st : FTNoIR_Filter) : List TickInput → FTNoIR_Filter
  | [] => st
  | t :: ts => runFilter (st.filter t.s t.input t.dt).1 ts

/-- Concrete deadzone state used to witness `deadzone_passthrough`. -/
def dzSample : DeadzoneFilter where
  dz_size := fun _ => 0
  last_output := fun _ => 5


/-- Concrete settings used by the witnesses and counterexamples below. -/
def sampleSettings : Settings where
  adaptivity_window_length := 0.25
  deadzone_scale := 1
  deadzone_exponent := 1
  process_sigma_pos := 1
  process_simga_rot := 1
  noise_pos_slider_value := 40
  noise_rot_slider_value := 40
  map_slider_value := fun _ => 1


/-- The same settings with a different position-noise slider value. -/
def sampleSettings2 : Settings :=
  { sampleSettings with noise_pos_slider_value := 41 }


/-- The symmetry invariant maintained by the filter loop: the state
covariances, process-noise covariance, measurement-noise covariance and the
scaler's base covariance are all symmetric. -/
def SymInv (st : FTNoIR_Filter) : Prop :=
  st.kf.state_covᵀ = st.kf.state_cov ∧
  st.kf.state_cov_priorᵀ = st.kf.state_cov_prior ∧
  st.kf.process_noise_covᵀ = st.kf.process_noise_cov ∧
  st.kf.measurement_noise_covᵀ = st.kf.measurement_noise_cov ∧
  st.kf_adaptive_process_noise_cov.base_covᵀ
    = st.kf_adaptive_process_noise_cov.base_cov


/-- Concrete mid-run filter state: `first_run` consumed, sliders in sync
with `sampleSettings`, Kalman pose estimate 1 on every axis, state
covariance diagonal 2, recorded minimal variance 1, previous deadzone
output 0, stored last input 0. -/
def midState : FTNoIR_Filter where
  kf := { KalmanFilter.init with
    state := fun _ => 1
    state_cov := Matrix.diagonal fun _ => 2 }
  kf_adaptive_process_noise_cov := KalmanProcessNoiseScaler.init
  dz_filter := { dz_size := fun _ => 0, last_output := fun _ => 0 }
  last_input := fun _ => 0
  first_run := false
  dt_since_last_input := 0
  prev_slider_pos := (40, 40)
  minimal_state_var := fun _ => 1


/-- C1: `KalmanFilter::measurement_update` computes the innovation covariance
`S = H·P_prior·Hᵀ + R`, the gain `K = P_prior·Hᵀ·S⁻¹`, the innovation
`y = measurement − H·state_prior`, and sets `state = state_prior + K·y` and
`state_cov = P_prior − K·H·P_prior` (H = measurement_matrix,
R = measurement_noise_cov); it mutates only `state`, `state_cov`,
`kalman_gain` and `innovation`, and being a total function it never rejects
input. -/
theorem measurement_update_matches_spec (kf : KalmanFilter) (m : PoseVector) :
    let H := kf.measurement_matrix
    let P := kf.state_cov_prior
    let S := H * P * Hᵀ + kf.measurement_noise_cov
    let K := P * Hᵀ * S⁻¹
    let y : PoseVector := fun i => m i - H.mulVec kf.state_prior i
    (kf.measurement_update m).state = (fun i => kf.state_prior i + K.mulVec y i) ∧
    (kf.measurement_update m).state_cov = P - K * H * P ∧
    (kf.measurement_update m).kalman_gain = K ∧
    (kf.measurement_update m).innovation = y ∧
    (kf.measurement_update m).measurement_noise_cov = kf.measurement_noise_cov ∧
    (kf.measurement_update m).process_noise_cov = kf.process_noise_cov ∧
    (kf.measurement_update m).measurement_matrix = kf.measurement_matrix ∧
    (kf.measurement_update m).state_cov_prior = kf.state_cov_prior ∧
    (kf.measurement_update m).transition_matrix = kf.transition_matrix ∧
    (kf.measurement_update m).state_prior = kf.state_prior :=
  ⟨rfl, rfl, rfl, rfl, rfl, rfl, rfl, rfl, rfl, rfl⟩

/-- C2: for every scaler state, filter state and `dt`, the scaling factor
`alpha` of `KalmanProcessNoiseScaler::update` lies in `[0.001, 1000]`; when
`T1 > 0` and `T2 > 0` it equals `clamp(sqrt(T1/T2), 0.001, 1000)` (with
`T1 = trace(innovation_cov_estimate − measurement_noise_cov)` taken after
the exponential update and `T2 = trace(H·state_cov_prior·Hᵀ)`), otherwise it
equals `0.001`; and `update` sets `process_noise_cov = alpha · base_cov`. -/
theorem alpha_in_range (sc : KalmanProcessNoiseScaler) (kf : KalmanFilter)
    (dt window_length : ℝ) :
    let T1 := (sc.ice_next kf dt window_length - kf.measurement_noise_cov).trace
    let T2 := (kf.measurement_matrix * kf.state_cov_prior * kf.measurement_matrixᵀ).trace
    let a := sc.alphaOf kf dt window_length
    (0.001 ≤ a ∧ a ≤ 1000) ∧
    a = (if T1 > 0 ∧ T2 > 0 then min 1000 (max 0.001 (Real.sqrt (T1 / T2))) else 0.001) ∧
    (sc.update kf dt window_length).2.process_noise_cov = a • sc.base_cov := by
  refine ⟨?_, ?_, rfl⟩
  · unfold KalmanProcessNoiseScaler.alphaOf
    dsimp only
    split_ifs with h
    · exact ⟨le_min (by norm_num) (le_max_left _ _), min_le_left _ _⟩
    · exact ⟨le_refl _, by norm_num⟩
  · exact if_congr and_comm rfl rfl

/-- C9: for every input vector and every axis `i` with non-positive
`dz_size[i]`, `DeadzoneFilter::filter` returns `output[i]` exactly equal to
`input[i]`, and `last_output[i]` is set to that value. -/
theorem deadzone_passthrough (dz : DeadzoneFilter) (e : ℝ) (input : PoseVector)
    (i : Fin 6) (h : dz.dz_size i ≤ 0) :
    (dz.filter e input).2 i = input i ∧
    (dz.filter e input).1.last_output i = input i := by
  have hnot : ¬ dz.dz_size i > 0 := not_lt.mpr h
  unfold DeadzoneFilter.filter
  dsimp only
  rw [if_neg hnot]
  exact ⟨rfl, rfl⟩

/-- Witness for C9 at a concrete input: zero deadzone on axis 0 passes the
input value 1 through unchanged. -/
theorem deadzone_passthrough_witness :
    dzSample.dz_size 0 ≤ 0 ∧
    ((dzSample.filter 2 fun _ => 1).2 0 = 1 ∧
      (dzSample.filter 2 fun _ => 1).1.last_output 0 = 1) :=
  ⟨le_refl 0, deadzone_passthrough dzSample 2 (fun _ => 1) 0 (le_refl 0)⟩

/-- C10: every output component of `DeadzoneFilter::filter` lies in the
closed interval between the previous `last_output[i]` and `input[i]` (the
suppression factor `f/(f+1)` lies in `[0, 1)`); in particular an input equal
to the previous output is returned exactly. -/
theorem deadzone_output_between (dz : DeadzoneFilter) (e : ℝ) (input : PoseVector)
    (i : Fin 6) :
    (dz.filter e input).2 i ∈ Set.uIcc (dz.last_output i) (input i) := by
  unfold DeadzoneFilter.filter
  dsimp only
  split_ifs with h
  · have hf0 : 0 ≤ (|input i - dz.last_output i| / dz.dz_size i) ^ e :=
      Real.rpow_nonneg (div_nonneg (abs_nonneg _) (le_of_lt h)) e
    set f := (|input i - dz.last_output i| / dz.dz_size i) ^ e with hfdef
    have ht0 : 0 ≤ f / (f + 1) := div_nonneg hf0 (by linarith)
    have ht1 : f / (f + 1) ≤ 1 := by
      rw [div_le_one (by linarith)]; linarith
    rcases le_total (dz.last_output i) (input i) with hle | hle
    · rw [Set.uIcc_of_le hle]
      refine ⟨?_, ?_⟩
      · nlinarith [mul_nonneg ht0 (by linarith : (0:ℝ) ≤ input i - dz.last_output i)]
      · nlinarith [mul_le_of_le_one_left
          (by linarith : (0:ℝ) ≤ input i - dz.last_output i) ht1]
    · rw [Set.uIcc_of_ge hle]
      refine ⟨?_, ?_⟩
      · nlinarith [mul_le_mul_of_nonpos_right ht1
          (by linarith : input i - dz.last_output i ≤ 0)]
      · nlinarith [mul_nonpos_of_nonneg_of_nonpos ht0
          (by linarith : input i - dz.last_output i ≤ 0)]
  · exact Set.right_mem_uIcc

/-- Warm-up behaviour of `FTNoIR_Filter::filter`: with no pending slider
change and `first_run` set, the call only clears `first_run` and returns no
output. -/
theorem filter_warmup_eq (st : FTNoIR_Filter) (s : Settings) (input : PoseVector)
    (dt : ℝ) (hs : ¬ st.slider_changed s) (hf : st.first_run = true) :
    st.filter s input dt = ({ st with first_run := false }, none) := by
  unfold FTNoIR_Filter.filter
  rw [if_neg hs, if_pos hf]

/-- After a reset the captured slider positions agree with the settings. -/
theorem reset_slider_unchanged (s : Settings) :
    ¬ (FTNoIR_Filter.reset s).slider_changed s := by
  simp [FTNoIR_Filter.slider_changed, FTNoIR_Filter.reset]

/-- C4: on a tick with `first_run` true (and no pending slider change), the
filter starts the timer, clears `first_run`, and returns without producing
output: nothing else in the state is touched — not the Kalman filter, the
scaler, the deadzone filter, nor the last-input memory. -/
theorem filter_first_run (st : FTNoIR_Filter) (s : Settings) (input : PoseVector)
    (dt : ℝ) (hs : ¬ st.slider_changed s) (hf : st.first_run = true) :
    st.filter s input dt = ({ st with first_run := false }, none) :=
  filter_warmup_eq st s input dt hs hf

/-- Witness for C4: a freshly reset filter consumes its first tick as a
warm-up, producing no output and only clearing `first_run`. -/
theorem filter_first_run_witness :
    (FTNoIR_Filter.reset sampleSettings).filter sampleSettings (fun _ => 0) 0.01
      = ({ FTNoIR_Filter.reset sampleSettings with first_run := false }, none) :=
  filter_first_run _ _ _ _ (reset_slider_unchanged sampleSettings) rfl

/-- C7: if either noise slider differs from the value captured at the last
reset, the next `filter` call behaves exactly as on a freshly-constructed
filter built with the new slider values (the constructor just calls
`reset()`): the call performs a full reset and then the warm-up return, so
the resulting state is the fresh state with `first_run` consumed. -/
theorem slider_change_resets (st : FTNoIR_Filter) (s : Settings) (input : PoseVector)
    (dt : ℝ) (h : st.slider_changed s) :
    st.filter s input dt = (FTNoIR_Filter.reset s).filter s input dt ∧
    (st.filter s input dt).1 = { FTNoIR_Filter.reset s with first_run := false } ∧
    (st.filter s input dt).2 = none := by
  have key : (FTNoIR_Filter.reset s).filter s input dt
      = ({ FTNoIR_Filter.reset s with first_run := false }, none) :=
    filter_warmup_eq _ s input dt (reset_slider_unchanged s) rfl
  have lhs_eq : st.filter s input dt = (FTNoIR_Filter.reset s).filter s input dt := by
    unfold FTNoIR_Filter.filter
    rw [if_pos h, ite_self]
  exact ⟨lhs_eq, by rw [lhs_eq, key], by rw [lhs_eq, key]⟩

/-- Witness for C7: a filter whose last reset captured different slider
values performs reset-then-warm-up on the next call. -/
theorem slider_change_resets_witness :
    ((FTNoIR_Filter.reset sampleSettings2).filter sampleSettings (fun _ => 0) 0.01).1
      = { FTNoIR_Filter.reset sampleSettings with first_run := false } :=
  (slider_change_resets _ _ _ _
    (by simp [FTNoIR_Filter.slider_changed, FTNoIR_Filter.reset, sampleSettings,
      sampleSettings2])).2.1

/-- `fill_process_noise_cov_matrix` writes a symmetric pattern: it preserves
symmetry of the target matrix. -/
theorem fill_process_noise_cov_matrix_symm (s : Settings)
    (M : Matrix (Fin 12) (Fin 12) ℝ) (dt : ℝ) (hM : Mᵀ = M) :
    (fill_process_noise_cov_matrix s M dt)ᵀ = fill_process_noise_cov_matrix s M dt := by
  have hM' : ∀ a b, M a b = M b a := by
    intro a b
    conv_lhs => rw [← hM]
    exact M.transpose_apply a b
  apply Matrix.ext
  intro r q
  rw [Matrix.transpose_apply]
  unfold fill_process_noise_cov_matrix
  split_ifs <;> first | rfl | omega | exact hM' q r

/-- Conjugation preserves symmetry: `(F·P·Fᵀ + Q)ᵀ = F·P·Fᵀ + Q` for
symmetric `P`, `Q`. -/
theorem conj_add_symm (F P Q : Matrix (Fin 12) (Fin 12) ℝ)
    (hP : Pᵀ = P) (hQ : Qᵀ = Q) :
    (F * P * Fᵀ + Q)ᵀ = F * P * Fᵀ + Q := by
  rw [Matrix.transpose_add, hQ, Matrix.transpose_mul, Matrix.transpose_mul,
    Matrix.transpose_transpose, hP, Matrix.mul_assoc]

/-- The joseph-free covariance update `P − P·Hᵀ·S⁻¹·H·P` with
`S = H·P·Hᵀ + R` is symmetric for symmetric `P` and `R`. -/
theorem kalman_cov_update_symm (H : Matrix (Fin 6) (Fin 12) ℝ)
    (P : Matrix (Fin 12) (Fin 12) ℝ) (R : Matrix (Fin 6) (Fin 6) ℝ)
    (hP : Pᵀ = P) (hR : Rᵀ = R) :
    (P - P * Hᵀ * (H * P * Hᵀ + R)⁻¹ * H * P)ᵀ
      = P - P * Hᵀ * (H * P * Hᵀ + R)⁻¹ * H * P := by
  have hS : (H * P * Hᵀ + R)ᵀ = H * P * Hᵀ + R := by
    rw [Matrix.transpose_add, hR, Matrix.transpose_mul, Matrix.transpose_mul,
      Matrix.transpose_transpose, hP, Matrix.mul_assoc]
  have hSinv : ((H * P * Hᵀ + R)⁻¹)ᵀ = (H * P * Hᵀ + R)⁻¹ := by
    rw [Matrix.transpose_nonsing_inv, hS]
  rw [Matrix.transpose_sub, Matrix.transpose_mul, Matrix.transpose_mul,
    Matrix.transpose_mul, Matrix.transpose_mul, Matrix.transpose_transpose,
    hP, hSinv]
  simp only [Matrix.mul_assoc]

/-- The function `reset()` establishes the symmetry invariant. -/
theorem reset_symInv (s : Settings) : SymInv (FTNoIR_Filter.reset s) := by
  have hbase : (fill_process_noise_cov_matrix s 0 0.03)ᵀ
      = fill_process_noise_cov_matrix s 0 0.03 :=
    fill_process_noise_cov_matrix_symm s 0 0.03 Matrix.transpose_zero
  exact ⟨hbase, Matrix.transpose_zero, hbase, Matrix.diagonal_transpose _, hbase⟩


/-- Unfolding lemma: with unchanged sliders and `first_run` cleared,
`filter` is `filter_tick`. -/
theorem filter_eq_tick (st : FTNoIR_Filter) (s : Settings) (input : PoseVector)
    (dt : ℝ) (hs : ¬ st.slider_changed s) (hf : st.first_run = false) :
    st.filter s input dt = st.filter_tick s input dt := by
  unfold FTNoIR_Filter.filter
  rw [if_neg hs, if_neg (by rw [hf]; exact Bool.false_ne_true)]

/-- Unfolding lemma: `do_kalman_filter` with a new input runs the Kalman
step. -/
theorem do_kalman_filter_pos (st : FTNoIR_Filter) (s : Settings)
    (input : PoseVector) {P : Prop} (hp : P) :
    st.do_kalman_filter s input P
      = (st.kalman_step s input, head6 (st.kalman_step s input).kf.state) := by
  unfold FTNoIR_Filter.do_kalman_filter
  rw [if_pos hp]

/-- Unfolding lemma: `do_kalman_filter` without a new input does nothing. -/
theorem do_kalman_filter_neg (st : FTNoIR_Filter) (s : Settings)
    (input : PoseVector) {P : Prop} (hp : ¬ P) :
    st.do_kalman_filter s input P = (st, head6 st.kf.state) := by
  unfold FTNoIR_Filter.do_kalman_filter
  rw [if_neg hp]

/-- The Kalman step (scaler update, `time_update`, `measurement_update`)
preserves the symmetry invariant. -/
theorem kalman_step_symInv (st : FTNoIR_Filter) (s : Settings) (input : PoseVector)
    (h : SymInv st) : SymInv (st.kalman_step s input) := by
  obtain ⟨h1, h2, h3, h4, h5⟩ := h
  have hB : (fill_process_noise_cov_matrix s
      st.kf_adaptive_process_noise_cov.base_cov st.dt_since_last_input)ᵀ
      = fill_process_noise_cov_matrix s
          st.kf_adaptive_process_noise_cov.base_cov st.dt_since_last_input :=
    fill_process_noise_cov_matrix_symm s _ _ h5
  have hQ : ∀ c : ℝ,
      (c • fill_process_noise_cov_matrix s
        st.kf_adaptive_process_noise_cov.base_cov st.dt_since_last_input)ᵀ
      = c • fill_process_noise_cov_matrix s
          st.kf_adaptive_process_noise_cov.base_cov st.dt_since_last_input :=
    fun c => by rw [Matrix.transpose_smul, hB]
  have hscp : ∀ c : ℝ,
      (fill_transition_matrix st.kf.transition_matrix st.dt_since_last_input
          * st.kf.state_cov
          * (fill_transition_matrix st.kf.transition_matrix st.dt_since_last_input)ᵀ
        + c • fill_process_noise_cov_matrix s
            st.kf_adaptive_process_noise_cov.base_cov st.dt_since_last_input)ᵀ
      = fill_transition_matrix st.kf.transition_matrix st.dt_since_last_input
          * st.kf.state_cov
          * (fill_transition_matrix st.kf.transition_matrix st.dt_since_last_input)ᵀ
        + c • fill_process_noise_cov_matrix s
            st.kf_adaptive_process_noise_cov.base_cov st.dt_since_last_input :=
    fun c => conj_add_symm _ _ _ h1 (hQ c)
  unfold FTNoIR_Filter.kalman_step KalmanProcessNoiseScaler.update
    KalmanFilter.time_update KalmanFilter.measurement_update SymInv
  dsimp only
  exact ⟨kalman_cov_update_symm st.kf.measurement_matrix _
      st.kf.measurement_noise_cov (hscp _) h4, hscp _, hQ _, h4, hB⟩

/-- `filter_tick` preserves the symmetry invariant. -/
theorem filter_tick_symInv (st : FTNoIR_Filter) (s : Settings) (input : PoseVector)
    (dt : ℝ) (h : SymInv st) : SymInv (st.filter_tick s input dt).1 := by
  unfold FTNoIR_Filter.filter_tick
  dsimp only
  by_cases hni : st.new_input_p input
  · rw [do_kalman_filter_pos _ s input hni]
    exact kalman_step_symInv
      { st with dt_since_last_input := st.dt_since_last_input + dt } s input h
  · rw [do_kalman_filter_neg _ s input hni]
    exact h

/-- Every `filter` call preserves the symmetry invariant. -/
theorem filter_symInv (st : FTNoIR_Filter) (s : Settings) (input : PoseVector)
    (dt : ℝ) (h : SymInv st) : SymInv (st.filter s input dt).1 := by
  by_cases hs : st.slider_changed s
  · have e1 : st.filter s input dt = (FTNoIR_Filter.reset s).filter s input dt := by
      unfold FTNoIR_Filter.filter
      rw [if_pos hs, ite_self]
    rw [e1, filter_warmup_eq _ s input dt (reset_slider_unchanged s) rfl]
    exact reset_symInv s
  · by_cases hfr : st.first_run = true
    · rw [filter_warmup_eq st s input dt hs hfr]
      exact h
    · have hf : st.first_run = false := by
        revert hfr
        cases st.first_run <;> simp
      rw [filter_eq_tick st s input dt hs hf]
      exact filter_tick_symInv st s input dt h

/-- Any finite run from a symmetric state keeps the invariant. -/
theorem runFilter_symInv (ticks : List TickInput) (st : FTNoIR_Filter)
    (h : SymInv st) : SymInv (runFilter st ticks) := by
  induction ticks generalizing st with
  | nil => exact h
  | cons t ts ih => exact ih _ (filter_symInv st t.s t.input t.dt h)

/-- C3: for every finite sequence of filter steps starting from `reset()`,
`state_cov` (and `state_cov_prior`, the quantity produced by `time_update`)
remains symmetric after every tick, in exact arithmetic. -/
theorem state_cov_stays_symmetric (s : Settings) (ticks : List TickInput) :
    (runFilter (FTNoIR_Filter.reset s) ticks).kf.state_covᵀ
      = (runFilter (FTNoIR_Filter.reset s) ticks).kf.state_cov ∧
    (runFilter (FTNoIR_Filter.reset s) ticks).kf.state_cov_priorᵀ
      = (runFilter (FTNoIR_Filter.reset s) ticks).kf.state_cov_prior := by
  have h := runFilter_symInv ticks (FTNoIR_Filter.reset s) (reset_symInv s)
  exact ⟨h.1, h.2.1⟩

/-- C8: on every regular (non-first, no pending reset) tick, the updated
`minimal_state_var` is componentwise at most the `state_cov` diagonal entry
used as the variance (the running minimum is taken before the subtraction),
and every component of the resulting
`dz_size = sqrt(variance − minimal_state_var)·deadzone_scale` is
non-negative (given the spec's non-negative `deadzone_scale` constant). -/
theorem dz_size_nonneg (st : FTNoIR_Filter) (s : Settings) (input : PoseVector)
    (dt : ℝ) (hs : ¬ st.slider_changed s) (hf : st.first_run = false)
    (hscale : 0 ≤ s.deadzone_scale) :
    (∀ i, ((st.filter s input dt).1).minimal_state_var i
        ≤ ((st.filter s input dt).1).kf.state_cov (Fin.castAdd 6 i) (Fin.castAdd 6 i)) ∧
    (∀ i, 0 ≤ ((st.filter s input dt).1).dz_filter.dz_size i) := by
  rw [filter_eq_tick st s input dt hs hf]
  unfold FTNoIR_Filter.filter_tick DeadzoneFilter.filter
  dsimp only
  constructor
  · intro i
    exact min_le_right _ _
  · intro i
    exact mul_nonneg (Real.sqrt_nonneg _) hscale

/-- Witness for C8 at the concrete mid-run state. -/
theorem dz_size_nonneg_witness :
    0 ≤ ((midState.filter sampleSettings (fun _ => 0) 0.01).1).dz_filter.dz_size 0 :=
  (dz_size_nonneg midState sampleSettings (fun _ => 0) 0.01
    (by simp [FTNoIR_Filter.slider_changed, midState, sampleSettings]) rfl
    (by norm_num [sampleSettings])).2 0

/-- Computation of a regular tick without a new input: the Kalman state is
untouched; the deadzone filter, resized from the unchanged covariance
diagonal, is applied to the unchanged Kalman pose. -/
theorem filter_tick_no_input_eq (st : FTNoIR_Filter) (s : Settings)
    (input : PoseVector) (dt : ℝ) (hni : ¬ st.new_input_p input) :
    st.filter_tick s input dt =
      (let variance : PoseVector := fun i =>
        st.kf.state_cov (Fin.castAdd 6 i) (Fin.castAdd 6 i)
      let minimal : PoseVector := fun i => min (st.minimal_state_var i) (variance i)
      let dzf : DeadzoneFilter :=
        { dz_size := fun i => Real.sqrt (variance i - minimal i) * s.deadzone_scale
          last_output := st.dz_filter.last_output }
      let r2 := dzf.filter s.deadzone_exponent (head6 st.kf.state)
      ({ st with
          dt_since_last_input := st.dt_since_last_input + dt
          minimal_state_var := minimal
          dz_filter := r2.1 },
       some r2.2)) := by
  unfold FTNoIR_Filter.filter_tick
  dsimp only
  rw [do_kalman_filter_neg _ s input hni]
  dsimp only
  rw [if_neg hni, if_neg hni]

/-- C5 (amended): on a regular tick whose input equals the stored last
input component-wise, the Kalman step is skipped — `kf` (state, `state_cov`
and every matrix) and the scaler are unchanged and `last_input` is kept —
and `filter` returns the deadzone filter (resized from the unchanged
covariance diagonal) applied to the unchanged Kalman pose `state.head(6)`;
this equals the previous filtered pose only when the deadzone leaves that
pose fixed, not in general. -/
theorem filter_no_new_input (st : FTNoIR_Filter) (s : Settings) (input : PoseVector)
    (dt : ℝ) (hs : ¬ st.slider_changed s) (hf : st.first_run = false)
    (heq : input = st.last_input) :
    (st.filter s input dt).1.kf = st.kf ∧
    (st.filter s input dt).1.kf_adaptive_process_noise_cov
      = st.kf_adaptive_process_noise_cov ∧
    (st.filter s input dt).1.last_input = st.last_input ∧
    (st.filter s input dt).2 = some (DeadzoneFilter.filter
      { dz_size := fun i => Real.sqrt
          (st.kf.state_cov (Fin.castAdd 6 i) (Fin.castAdd 6 i)
            - min (st.minimal_state_var i)
                (st.kf.state_cov (Fin.castAdd 6 i) (Fin.castAdd 6 i)))
          * s.deadzone_scale
        last_output := st.dz_filter.last_output }
      s.deadzone_exponent (head6 st.kf.state)).2 := by
  have hni : ¬ st.new_input_p input := by
    intro hc
    rcases hc with ⟨i, hne⟩
    exact hne (by rw [heq])
  rw [filter_eq_tick st s input dt hs hf, filter_tick_no_input_eq st s input dt hni]
  exact ⟨rfl, rfl, rfl, rfl⟩

/-- Witness for the amended C5 at the concrete mid-run state. -/
theorem filter_no_new_input_witness :
    (midState.filter sampleSettings (fun _ => 0) 0.01).1.kf = midState.kf :=
  (filter_no_new_input midState sampleSettings (fun _ => 0) 0.01
    (by simp [FTNoIR_Filter.slider_changed, midState, sampleSettings]) rfl rfl).1

/-- Counterexample for C5 as stated: at the concrete mid-run state
`midState` (non-first tick, input equal to the stored last input) the
returned pose is NOT the previous filtered pose — the deadzone filter, fed
a positive `dz_size`, moves the output from 0 toward the Kalman pose 1. -/
theorem filter_no_new_input_not_previous :
    midState.first_run = false ∧
    (fun _ : Fin 6 => (0:ℝ)) = midState.last_input ∧
    (midState.filter sampleSettings (fun _ => 0) 0.01).2
      ≠ some midState.dz_filter.last_output := by
  refine ⟨rfl, rfl, ?_⟩
  have hni : ¬ midState.new_input_p (fun _ => 0) := by
    simp [FTNoIR_Filter.new_input_p, midState]
  rw [filter_eq_tick midState sampleSettings (fun _ => 0) 0.01
      (by simp [FTNoIR_Filter.slider_changed, midState, sampleSettings]) rfl,
    filter_tick_no_input_eq midState sampleSettings (fun _ => 0) 0.01 hni]
  intro hc
  have h0 := congrFun (Option.some.inj hc) 0
  unfold DeadzoneFilter.filter at h0
  norm_num [midState, sampleSettings, head6, KalmanFilter.init,
    Matrix.diagonal_apply_eq, Real.sqrt_one, Real.rpow_one, min_def] at h0

/-- A regular tick that registers a new input stores it as `last_input`. -/
theorem filter_tick_stores_input (st : FTNoIR_Filter) (s : Settings)
    (input : PoseVector) (dt : ℝ) (hni : st.new_input_p input) :
    (st.filter_tick s input dt).1.last_input = input := by
  unfold FTNoIR_Filter.filter_tick
  dsimp only
  rw [if_pos hni]

/-- A regular tick that does not register a new input keeps `last_input`. -/
theorem filter_tick_keeps_input (st : FTNoIR_Filter) (s : Settings)
    (input : PoseVector) (dt : ℝ) (hni : ¬ st.new_input_p input) :
    (st.filter_tick s input dt).1.last_input = st.last_input := by
  rw [filter_tick_no_input_eq st s input dt hni]

/-- C6 (amended): after `reset()` and a warm-up tick with input `u`, the
second tick carrying the same `u` registers as a new measurement exactly
when `u` differs from the zero pose — `reset()` zeroes the last-input
memory and the warm-up tick does not store its input.  After the second
tick the stored last input equals `u` (stored if it registered, already
zero otherwise), so a third tick with input `w` registers exactly when `w`
differs from `u`. -/
theorem tick_registration (s : Settings) (u w : PoseVector) (d1 d2 : ℝ) :
    ((((FTNoIR_Filter.reset s).filter s u d1).1).new_input_p u
      ↔ u ≠ fun _ => (0:ℝ)) ∧
    (((((FTNoIR_Filter.reset s).filter s u d1).1).filter s u d2).1.new_input_p w
      ↔ w ≠ u) := by
  rw [filter_warmup_eq _ s u d1 (reset_slider_unchanged s) rfl]
  have hlast1 : ({ FTNoIR_Filter.reset s with first_run := false }
      : FTNoIR_Filter).last_input = fun _ => (0:ℝ) := rfl
  have h1 : ({ FTNoIR_Filter.reset s with first_run := false }
      : FTNoIR_Filter).new_input_p u ↔ u ≠ fun _ => (0:ℝ) := by
    rw [FTNoIR_Filter.new_input_p, hlast1]
    exact Iff.symm Function.ne_iff
  have hs1 : ¬ ({ FTNoIR_Filter.reset s with first_run := false }
      : FTNoIR_Filter).slider_changed s := reset_slider_unchanged s
  have hlast2 : (({ FTNoIR_Filter.reset s with first_run := false }
      : FTNoIR_Filter).filter_tick s u d2).1.last_input = u := by
    by_cases hni : ({ FTNoIR_Filter.reset s with first_run := false }
        : FTNoIR_Filter).new_input_p u
    · exact filter_tick_stores_input _ s u d2 hni
    · have hu0 : u = fun _ => (0:ℝ) := by
        by_contra hc
        exact hni (h1.mpr hc)
      rw [filter_tick_keeps_input _ s u d2 hni, hlast1, hu0]
  refine ⟨h1, ?_⟩
  rw [filter_eq_tick _ s u d2 hs1 rfl, FTNoIR_Filter.new_input_p, hlast2]
  exact Iff.symm Function.ne_iff

/-- Counterexample for C6 as stated: after `reset()` and a warm-up tick
with the constant input pose 1, the second tick carrying the very same
input DOES register as a new measurement (the comparison is against the
zeroed last-input memory, not against the warm-up tick's input). -/
theorem second_tick_registers_counterexample :
    (((FTNoIR_Filter.reset sampleSettings).filter sampleSettings
        (fun _ => 1) 0.01).1).new_input_p (fun _ => 1) := by
  rw [filter_warmup_eq _ sampleSettings (fun _ => 1) 0.01
    (reset_slider_unchanged sampleSettings) rfl]
  exact ⟨0, by simp [FTNoIR_Filter.reset]⟩
